import Mathlib

/-!
Verification of the astilectron bundler (`bundler.go`) against its
natural-language specification.

The Go source is shallowly embedded as follows.

* The filesystem world visible to vendor provisioning is a state `St`:
  the cache directory is a map from path to `FileStatus` (a file can be
  absent, present with some content, or in a state where `stat` fails
  with an error other than not-exist, e.g. a permission error); the
  vendor directory is an association list from path to content; byte
  contents are abstracted as `Nat`.  The network and the zip primitive
  are modelled as read-only functions `remote` / `zipOf` carried in the
  state.  `fetches` counts network downloads.

* Cancellation (Go's `context.Context`) is modelled by a logical clock:
  every I/O operation advances `time` by one, and the token is
  considered fired at all instants `≥ t` when the cancellation schedule
  is `some t` (`none` means the token never fires).  ctx-aware external
  primitives (download, copy, zip) abort with the context error when the
  token has fired when they start, matching the spec's "treated as
  atomic w.r.t. the cancellation token they are passed"; the explicit
  `b.ctx.Err()` checkpoints of the Go code are embedded as explicit
  tests after each I/O step.

* Errors are the inductive `BErr`: the context-cancellation terminal
  error, generic I/O errors, and `errors.Wrapf`-style wrapping.

* Fallible Go functions returning `(err)` become
  `Except (BErr × St) St`, keeping the state observable on failure.
-/

/-- Result of `os.Stat` on a path as far as the bundler looks at it:
the file is absent (`os.IsNotExist` holds of the stat error), present
with some content, or stat fails with a different error (e.g.
permission denied), for which `os.IsNotExist` is false. -/
inductive FileStatus
  | absent
  | present (content : Nat)
  | statError
  deriving DecidableEq, Repr

/-- Errors produced by the embedded bundler: the context's terminal
cancellation error, a plain I/O error, and `errors.Wrapf`-style
wrapping of an inner error with a message. -/
inductive BErr
  | ctxCanceled
  | ioErr (msg : String)
  | wrap (msg : String) (inner : BErr)
  deriving DecidableEq, Repr

/-- An error ultimately caused by context cancellation (the chain of
`errors.Wrapf` wrappers bottoms out at the context's error), as opposed
to a generic I/O error. -/
def BErr.isCancelRooted : BErr → Bool
  | .ctxCanceled => true
  | .ioErr _ => false
  | .wrap _ e => e.isCancelRooted

/-- The filesystem / network world threaded through vendor
provisioning. -/
structure St where
  /-- status of each path of the cache directory -/
  cache : String → FileStatus
  /-- contents of the vendor directory: path, content pairs -/
  vendor : List (String × Nat)
  /-- number of network fetches performed so far -/
  fetches : Nat
  /-- logical clock: each I/O operation advances it by one -/
  time : Nat
  /-- content served by the network for each download source URL -/
  remote : String → Nat
  /-- content produced by zipping a local directory -/
  zipOf : String → Nat

/-- Whether the cancellation token (scheduled to fire at instant `t`
when the schedule is `some t`) has fired at instant `now`. -/
def fired : Option Nat → Nat → Bool
  | none, _ => false
  | some t, now => decide (t ≤ now)

/-- Point update of a cache map. -/
def updateCache (f : String → FileStatus) (p : String) (st : FileStatus) :
    String → FileStatus :=
  fun q => if q = p then st else f q

/-- Write `content` at `name` in the vendor directory, overwriting an
existing entry of the same name (the semantics of copying a file onto a
destination path). -/
def insertVendor : List (String × Nat) → String → Nat → List (String × Nat)
  | [], name, c => [(name, c)]
  | (n, c0) :: rest, name, c =>
      if n = name then (n, c) :: rest else (n, c0) :: insertVendor rest name c

/-- Embeds `astilectron.Download(b.ctx, b.Client, src, dst)`: ctx-aware network
fetch of `src` into cache path `dst`.  Aborts with the context error if
the token has fired; otherwise stores the remote content and counts one
fetch. -/
def download (fireAt : Option Nat) (src dst : String) (s : St) :
    Except (BErr × St) St :=
  if fired fireAt s.time then .error (.ctxCanceled, s)
  else .ok { s with
    cache := updateCache s.cache dst (.present (s.remote src)),
    fetches := s.fetches + 1,
    time := s.time + 1 }

/-- Embeds `astizip.Zip(b.ctx, srcDir, dst, ...)`: ctx-aware zipping of a local
directory into cache path `dst`. -/
def zipDir (fireAt : Option Nat) (srcDir dst : String) (s : St) :
    Except (BErr × St) St :=
  if fired fireAt s.time then .error (.ctxCanceled, s)
  else .ok { s with
    cache := updateCache s.cache dst (.present (s.zipOf srcDir)),
    time := s.time + 1 }

/-- Embeds `astios.Copy(b.ctx, src, dst)` from a cache path to a vendor path:
ctx-aware copy.  Aborts with the context error if the token has fired;
fails with an I/O error when the source cannot be read (absent, or its
status cannot be determined). -/
def copyFile (fireAt : Option Nat) (src vendorName : String) (s : St) :
    Except (BErr × St) St :=
  if fired fireAt s.time then .error (.ctxCanceled, s)
  else
    match s.cache src with
    | .present c =>
        .ok { s with vendor := insertVendor s.vendor vendorName c,
                     time := s.time + 1 }
    | _ => .error (.ioErr ("cannot read " ++ src), { s with time := s.time + 1 })

/-- Embeds `filepath.Join` of two components (Unix separator; the `Clean`
normalisation done by Go is irrelevant for the paths the bundler
joins). -/
def filepathJoin (a b : String) : String :=
  if a = "" then b else a ++ "/" ++ b

/-- Modelled from the spec: the vendor-directory file names of the two
payload archives (constants `zipNameAstilectron` / `zipNameElectron` of
this repository live in a source file that is not part of `src/`).  The
spec only requires that the runtime-framework archive and the
webview-runtime archive are two distinct items of the vendor
directory. -/
def zipNameAstilectron : String := "astilectron.zip"

/-- Modelled from the spec: see `zipNameAstilectron`. -/
def zipNameElectron : String := "electron.zip"

/-- The bundler fields that vendor provisioning reads
(`pathAstilectron`, `pathCache`, `pathVendor` of the Go `Bundler`
struct), together with the external constants/functions it consults:
the versions `astilectron.VersionAstilectron` /
`astilectron.VersionElectron` and the canonical download sources
`astilectron.AstilectronDownloadSrc()` /
`astilectron.ElectronDownloadSrc(os, arch)` of the external astilectron
package, kept abstract as data of the record. -/
structure Bundler where
  pathAstilectron : String
  pathCache : String
  pathVendor : String
  versionAstilectron : String
  versionElectron : String
  srcAstilectron : String
  srcElectron : String → String → String

/-- Cache path of the astilectron archive:
`filepath.Join(b.pathCache, fmt.Sprintf("astilectron-%s.zip", VersionAstilectron))`. -/
def astilCacheKey (b : Bundler) : String :=
  filepathJoin b.pathCache ("astilectron-" ++ b.versionAstilectron ++ ".zip")

/-- Cache path of the electron archive:
`filepath.Join(b.pathCache, fmt.Sprintf("electron-%s-%s-%s.zip", oS, arch, VersionElectron))`. -/
def electronCacheKey (b : Bundler) (oS arch : String) : String :=
  filepathJoin b.pathCache
    ("electron-" ++ oS ++ "-" ++ arch ++ "-" ++ b.versionElectron ++ ".zip")

/-- Vendor path of the astilectron archive. -/
def vendorAstilPath (b : Bundler) : String :=
  filepathJoin b.pathVendor zipNameAstilectron

/-- Vendor path of the electron archive. -/
def vendorElectronPath (b : Bundler) : String :=
  filepathJoin b.pathVendor zipNameElectron

/-- Embeds `provisionVendorZip` of `bundler.go`: if stat-ing the cache path
reports not-exist, download into the cache (wrapping a failure);
otherwise — cache hit, or a stat error other than not-exist — skip the
download; then check the context, copy the cache entry to the vendor
path (wrapping a failure), and check the context again. -/
def provisionVendorZip (fireAt : Option Nat)
    (pathDownload pathCache pathVendor : String) (s : St) :
    Except (BErr × St) St :=
  let dl : Except (BErr × St) St :=
    match s.cache pathCache with
    | .absent =>
        match download fireAt pathDownload pathCache s with
        | .error (e, s') =>
            .error (.wrap ("downloading " ++ pathDownload ++ " into " ++
                            pathCache ++ " failed") e, s')
        | .ok s' => .ok s'
    | _ => .ok s
  match dl with
  | .error r => .error r
  | .ok s1 =>
    if fired fireAt s1.time then .error (.ctxCanceled, s1)
    else
      match copyFile fireAt pathCache pathVendor s1 with
      | .error (e, s2) =>
          .error (.wrap ("copying " ++ pathCache ++ " to " ++ pathVendor ++
                          " failed") e, s2)
      | .ok s2 =>
          if fired fireAt s2.time then .error (.ctxCanceled, s2)
          else .ok s2

/-- Embeds `provisionVendorAstilectron` of `bundler.go`: when a local
astilectron override path is configured, first zip it into the cache
entry (wrapping a failure) and check the context; then provision the
cache entry into the vendor directory. -/
def provisionVendorAstilectron (b : Bundler) (fireAt : Option Nat) (s : St) :
    Except (BErr × St) St :=
  let p := astilCacheKey b
  let z : Except (BErr × St) St :=
    if 0 < b.pathAstilectron.length then
      match zipDir fireAt b.pathAstilectron p s with
      | .error (e, s') =>
          .error (.wrap ("zipping " ++ b.pathAstilectron ++ " into " ++ p ++
                          " failed") e, s')
      | .ok s' =>
          if fired fireAt s'.time then .error (.ctxCanceled, s')
          else .ok s'
    else .ok s
  match z with
  | .error r => .error r
  | .ok s1 => provisionVendorZip fireAt b.srcAstilectron p (vendorAstilPath b) s1

/-- Embeds `provisionVendorElectron` of `bundler.go`. -/
def provisionVendorElectron (b : Bundler) (fireAt : Option Nat)
    (oS arch : String) (s : St) : Except (BErr × St) St :=
  provisionVendorZip fireAt (b.srcElectron oS arch)
    (electronCacheKey b oS arch) (vendorElectronPath b) s

/-- Embeds `os.RemoveAll(b.pathVendor)`: empties the vendor directory (one I/O
step; the Go code performs no context check here). -/
def removeAllVendor (s : St) : St :=
  { s with vendor := [], time := s.time + 1 }

/-- Embeds `os.MkdirAll(b.pathVendor, 0777)` right after the removal: the
vendor directory is already empty, so this only spends an I/O step. -/
def mkdirVendor (s : St) : St :=
  { s with time := s.time + 1 }

/-- Embeds `provisionVendor` of `bundler.go`: remove the previous vendor
folder, recreate it, provision astilectron (wrapping a failure), then
provision electron for the environment's OS/arch (wrapping a
failure). -/
def provisionVendor (b : Bundler) (fireAt : Option Nat) (oS arch : String)
    (s : St) : Except (BErr × St) St :=
  let s1 := removeAllVendor s
  let s2 := mkdirVendor s1
  match provisionVendorAstilectron b fireAt s2 with
  | .error (e, s') =>
      .error (.wrap "provisioning astilectron vendor failed" e, s')
  | .ok s3 =>
    match provisionVendorElectron b fireAt oS arch s3 with
    | .error (e, s') =>
        .error (.wrap ("provisioning electron vendor for OS " ++ oS ++
                        " and arch " ++ arch ++ " failed") e, s')
    | .ok s4 => .ok s4

/-- Embeds `absPath` of `bundler.go`.  `filepath.Abs` depends on the process
working directory and can fail, so it is passed in as `absFn`; the
optional default-path function mirrors the `defaultPathFn` argument
(`none` embeds the Go `nil`).  A non-empty config path is absolutized
(wrapping a failure); an empty one falls back to the default function
(wrapping its failure); with no default function the empty string is
returned without error. -/
def absPath (absFn : String → Except BErr String) (configPath : String)
    (defaultPathFn : Option (Unit → Except BErr String)) :
    Except BErr String :=
  if 0 < configPath.length then
    match absFn configPath with
    | .error e =>
        .error (.wrap ("filepath.Abs of " ++ configPath ++ " failed") e)
    | .ok o => .ok o
  else
    match defaultPathFn with
    | some fn =>
        match fn () with
        | .error e =>
            .error (.wrap ("default path function to compute absPath of " ++
                            configPath ++ " failed") e)
        | .ok o => .ok o
    | none => .ok ""

/-- A bundle configuration environment (`ConfigurationEnvironment`):
OS, architecture and free-form build tags. -/
structure Env where
  os : String
  arch : String
  tags : String
  deriving DecidableEq, Repr

/-- The environment name computed by `Bundle` (lines 248-252) for
filter matching: OS, a hyphen, then — when tags are non-empty — the
tags with spaces replaced by hyphens and another hyphen, then the
architecture. -/
def eName (e : Env) : String :=
  let n := e.os ++ "-"
  let n := if e.tags ≠ "" then n ++ (e.tags.replace " " "-") ++ "-" else n
  n ++ e.arch

/-- The per-environment output directory path recomputed independently
by `bundle` (lines 430-435): `filepath.Join(pathOutput, e.OS)`, then
`+ "-" + sanitized tags` when tags are non-empty, then
`+ "-" + e.Arch`. -/
def environmentPath (pathOutput : String) (e : Env) : String :=
  let p := filepathJoin pathOutput e.os
  let p := if 0 < e.tags.length then
      p ++ "-" ++ (e.tags.replace " " "-")
    else p
  p ++ "-" ++ e.arch

/-- The world of the `Bundle` loop: the outcome of the per-environment
`bundle` step (vendor provisioning, data binding, compiling, finishing)
for each environment, and — when that step fails — the partial output
it may leave behind. -/
structure BWorld where
  buildResult : Env → Except BErr Nat
  leftoverOut : Env → Option Nat

/-- Observable state of the `Bundle` loop: the per-environment-name
outputs present under the output root, and the log of environments the
loop has attempted, in order. -/
structure LSt where
  outputs : String → Option Nat
  attempts : List String

/-- Point update of an outputs map. -/
def updateOut (f : String → Option Nat) (n : String) (v : Option Nat) :
    String → Option Nat :=
  fun q => if q = n then v else f q

/-- The loop of `Bundle` (lines 247-270), with the per-environment
`bundle` step abstracted into `w.buildResult` / `w.leftoverOut`: for
each environment in configured order, compute its name, skip it when a
filter is configured and does not match, otherwise attempt it; a
failure of the step aborts the loop with the error wrapped as
`bundling for environment <OS>/<arch> failed`, leaving that
environment's possibly partial output; a success records the output and
continues.  (`Bundle` starts by creating — never clearing — the cache
and output roots, which touches no per-environment output.) -/
def runBundle (w : BWorld) (filter : Option (String → Bool)) :
    List Env → LSt → Except (BErr × LSt) LSt
  | [], st => .ok st
  | e :: rest, st =>
    let n := eName e
    if (match filter with | none => true | some f => f n) then
      let st1 : LSt := { st with attempts := st.attempts ++ [n] }
      match w.buildResult e with
      | .error err =>
          .error (.wrap ("bundling for environment " ++ e.os ++ "/" ++
                          e.arch ++ " failed") err,
                  { st1 with outputs := updateOut st1.outputs n (w.leftoverOut e) })
      | .ok o =>
          runBundle w filter rest
            { st1 with outputs := updateOut st1.outputs n (some o) }
    else
      runBundle w filter rest st

/-- An external command about to be executed (`exec.Cmd` as the bundler
fills it in): its argument vector and its environment — `none` embeds
Go's nil `cmd.Env`, which means inheriting the parent process
environment, while `some l` is a replaced environment containing
exactly the variables of `l`. -/
structure Cmd where
  args : List String
  env : Option (List String)
  deriving DecidableEq, Repr

/-- The compiler invocation constructed by `bundle` (lines 477-484):
`go build -ldflags <l> -o <binaryPath> -tags <tags> <buildPath>` with a
replaced environment of exactly GOARCH, GOOS, GOPATH and PATH. -/
def buildCmd (goBinary ldflagsStr binaryPath buildPath : String) (e : Env)
    (gopath path : String) : Cmd :=
  { args := [goBinary, "build", "-ldflags", ldflagsStr, "-o", binaryPath,
             "-tags", e.tags, buildPath],
    env := some ["GOARCH=" ++ e.arch, "GOOS=" ++ e.os,
                 "GOPATH=" ++ gopath, "PATH=" ++ path] }

/-- Embeds `filepath.Ext`: the suffix beginning at the final dot in the final
slash-separated element of the path; empty if there is no dot.
Implemented by scanning the reversed character list. -/
def extRev : List Char → List Char → List Char
  | [], _ => []
  | c :: rest, acc =>
      if c = '/' then []
      else if c = '.' then '.' :: acc
      else extRev rest (c :: acc)

/-- Embeds `filepath.Ext` on strings. -/
def filepathExt (p : String) : String :=
  String.mk (extRev p.data.reverse [])

/-- The `Info.plist` written by `finishDarwin` (lines 566-580), as the
exact string concatenation of the Go source, with `appName` the app
name and `iconExt` the darwin icon path's extension
(`filepath.Ext(b.pathIconDarwin)`). -/
def infoPlistString (appName iconExt : String) : String :=
  "<?xml version=\"1.0\" encoding=\"UTF-8\"?><!DOCTYPE plist PUBLIC \"-//Apple//DTD PLIST 1.0//EN\" \"http://www.apple.com/DTDs/PropertyList-1.0.dtd\">\n<plist version=\"1.0\">\n\t<dict>\n\t\t<key>CFBundleIconFile</key>\n\t\t<string>" ++
  appName ++ iconExt ++
  "</string>\n\t\t<key>CFBundleDisplayName</key>\n\t\t<string>" ++
  appName ++
  "</string>\n\t\t<key>CFBundleExecutable</key>\n\t\t<string>" ++
  appName ++
  "</string>\n\t\t<key>CFBundleName</key>\n\t\t<string>" ++
  appName ++
  "</string>\n\t\t<key>CFBundleIdentifier</key>\n\t\t<string>com." ++
  appName ++
  "</string>\n\t</dict>\n</plist>"

/-- One `<key>/<string>` pair of the plist dictionary, rendered the way
the Go template lays it out. -/
def renderPlistEntry (kv : String × String) : String :=
  "\t\t<key>" ++ kv.1 ++ "</key>\n\t\t<string>" ++ kv.2 ++ "</string>\n"

/-- A plist document holding exactly the given dictionary entries, in
order, with the Go template's header and footer. -/
def renderPlist (entries : List (String × String)) : String :=
  "<?xml version=\"1.0\" encoding=\"UTF-8\"?><!DOCTYPE plist PUBLIC \"-//Apple//DTD PLIST 1.0//EN\" \"http://www.apple.com/DTDs/PropertyList-1.0.dtd\">\n<plist version=\"1.0\">\n\t<dict>\n" ++
  String.join (entries.map renderPlistEntry) ++
  "\t</dict>\n</plist>"

/-- The dictionary entries of the written `Info.plist`, read off the
template. -/
def infoPlistEntries (appName iconExt : String) : List (String × String) :=
  [("CFBundleIconFile", appName ++ iconExt),
   ("CFBundleDisplayName", appName),
   ("CFBundleExecutable", appName),
   ("CFBundleName", appName),
   ("CFBundleIdentifier", "com." ++ appName)]

/-- A filesystem effect of a platform finisher. -/
inductive FsAction
  | mkdirAll (p : String)
  | move (src dst : String)
  | chmod (p : String)
  | copy (src dst : String)
  | writeFile (p : String) (content : String)
  deriving DecidableEq, Repr

/-- The sequence of filesystem effects of `finishDarwin` (lines
509-585) on its success path, in source order: create
`<env>/<AppName>.app/Contents/MacOS`; move the compiled binary there
renamed to the app name; chmod it 0777 (mark executable); when a darwin
icon is configured, create `Contents/Resources` and copy the icon in as
`<AppName><icon-extension>`; finally write `Contents/Info.plist`.  The
fields read from the bundler are the app name and the darwin icon
path. -/
def finishDarwin (appName pathIconDarwin environmentPath binaryPath : String) :
    List FsAction :=
  let contentsPath :=
    filepathJoin (filepathJoin environmentPath (appName ++ ".app")) "Contents"
  let macOSPath := filepathJoin contentsPath "MacOS"
  let macOSBinaryPath := filepathJoin macOSPath appName
  [FsAction.mkdirAll macOSPath,
   FsAction.move binaryPath macOSBinaryPath,
   FsAction.chmod macOSBinaryPath] ++
  (if 0 < pathIconDarwin.length then
    let resourcesPath := filepathJoin contentsPath "Resources"
    let ip := filepathJoin resourcesPath (appName ++ filepathExt pathIconDarwin)
    [FsAction.mkdirAll resourcesPath,
     FsAction.copy pathIconDarwin ip]
  else []) ++
  [FsAction.writeFile (filepathJoin contentsPath "Info.plist")
     (infoPlistString appName (filepathExt pathIconDarwin))]

/-- Content the provisioning step ends up with for a cache key: the
cached content on a hit, the freshly downloaded remote content
otherwise. -/
def cachedOrRemote (s : St) (key src : String) : Nat :=
  match s.cache key with
  | .present c => c
  | _ => s.remote src

/-- The state produced by a successful, uncancelled
`provisionVendorZip`: on a cache hit only the copy happens; otherwise
the download fills the cache first. -/
def pvzResult (src pc vn : String) (s : St) : St :=
  match s.cache pc with
  | .present c =>
      { s with vendor := insertVendor s.vendor vn c, time := s.time + 1 }
  | _ =>
      { s with cache := updateCache s.cache pc (.present (s.remote src)),
               fetches := s.fetches + 1,
               vendor := insertVendor s.vendor vn (s.remote src),
               time := s.time + 2 }

/-- State after step 1 of provisioning: vendor directory removed and
recreated empty. -/
def postVendorClear (s : St) : St := mkdirVendor (removeAllVendor s)

/-- State after the optional local-override zip step of
`provisionVendorAstilectron`. -/
def postAstilZip (b : Bundler) (s : St) : St :=
  if 0 < b.pathAstilectron.length then
    { s with cache := updateCache s.cache (astilCacheKey b)
               (.present (s.zipOf b.pathAstilectron)),
             time := s.time + 1 }
  else s

/-- The state produced by a successful, uncancelled `provisionVendor`
run. -/
def pvResult (b : Bundler) (oS arch : String) (s : St) : St :=
  pvzResult (b.srcElectron oS arch) (electronCacheKey b oS arch)
    (vendorElectronPath b)
    (pvzResult b.srcAstilectron (astilCacheKey b) (vendorAstilPath b)
      (postAstilZip b (postVendorClear s)))

/-- Content of the astilectron payload the run puts in the vendor
directory, in terms of the starting state: the zip of the local
override when one is configured, otherwise the cached or downloaded
canonical archive. -/
def astilPayload (b : Bundler) (s : St) : Nat :=
  if 0 < b.pathAstilectron.length then s.zipOf b.pathAstilectron
  else cachedOrRemote s (astilCacheKey b) b.srcAstilectron

/-- Content of the electron payload for an OS/arch, in terms of the
starting state. -/
def electronPayload (b : Bundler) (oS arch : String) (s : St) : Nat :=
  cachedOrRemote s (electronCacheKey b oS arch) (b.srcElectron oS arch)

/-- A concrete bundler used by the witnesses. -/
def bEx : Bundler :=
  { pathAstilectron := "", pathCache := "/cache", pathVendor := "/in/vendor",
    versionAstilectron := "0.9.0", versionElectron := "1.8.1",
    srcAstilectron := "https://astilectron.zip",
    srcElectron := fun oS arch => "https://electron-" ++ oS ++ "-" ++ arch }

/-- A concrete starting world: empty cache, empty vendor directory. -/
def sEx : St :=
  { cache := fun _ => .absent, vendor := [], fetches := 0, time := 0,
    remote := fun _ => 7, zipOf := fun _ => 5 }

/-- A world whose cache paths are all in a stat-error state. -/
def sExStatErr : St :=
  { cache := fun _ => .statError, vendor := [], fetches := 0, time := 0,
    remote := fun _ => 7, zipOf := fun _ => 5 }

/-- A concrete absolutization function for the witness: prepend a
working directory to the path. -/
def absFnEx (p : String) : Except BErr String := .ok ("/wd/" ++ p)

/-- A concrete default-path function for the witness. -/
def defaultFnEx (_ : Unit) : Except BErr String := .ok "/wd"

/-- Concrete world for the C5 witness: windows builds fail, the rest
succeed. -/
def wEx : BWorld :=
  { buildResult := fun e =>
      if e.os = "windows" then .error (.ioErr "compile failed") else .ok 1,
    leftoverOut := fun _ => some 0 }

/-- An empty output root for the C5 witness. -/
def stEx : LSt := { outputs := fun _ => none, attempts := [] }

/-! ### Helper lemmas on strings and the vendor directory -/

theorem String.append_cancel_left' {a x y : String} (h : a ++ x = a ++ y) :
    x = y := by
  have h2 := congrArg String.data h
  simp only [String.data_append] at h2
  exact String.ext (List.append_cancel_left h2)

theorem filepathJoin_inj (c : String) {x y : String}
    (h : filepathJoin c x = filepathJoin c y) : x = y := by
  unfold filepathJoin at h
  split at h
  · exact h
  · have h2 := congrArg String.data h
    simp only [String.data_append, List.append_assoc] at h2
    exact String.ext (List.append_cancel_left (List.append_cancel_left h2))

theorem string_append_ne_of_head_ne {a b : String} {x y : List Char}
    {c d : Char} (hc : c ≠ d) (ha : a.data = c :: x) (hb : b.data = d :: y)
    (u w : String) : a ++ u ≠ b ++ w := by
  intro h
  have h2 := congrArg String.data h
  simp only [String.data_append, ha, hb, List.cons_append] at h2
  exact hc (List.head_eq_of_cons_eq h2)

theorem astilCacheKey_ne_electronCacheKey (b : Bundler) (oS arch : String) :
    astilCacheKey b ≠ electronCacheKey b oS arch := by
  unfold astilCacheKey electronCacheKey
  intro h
  have h1 := filepathJoin_inj _ h
  have h2 : ("astilectron-" ++ b.versionAstilectron) ++ ".zip" =
      ("electron-" ++ (oS ++ "-" ++ arch ++ "-" ++ b.versionElectron)) ++ ".zip" := by
    simpa [String.append_assoc] using h1
  exact string_append_ne_of_head_ne (c := 'a') (d := 'e') (by decide)
    (show ("astilectron-" ++ b.versionAstilectron).data =
        'a' :: ("stilectron-" ++ b.versionAstilectron).data by
      simp [String.data_append])
    (show ("electron-" ++ (oS ++ "-" ++ arch ++ "-" ++ b.versionElectron)).data =
        'e' :: ("lectron-" ++ (oS ++ "-" ++ arch ++ "-" ++ b.versionElectron)).data by
      simp [String.data_append])
    _ _ h2

theorem vendorAstilPath_ne_vendorElectronPath (b : Bundler) :
    vendorAstilPath b ≠ vendorElectronPath b := by
  unfold vendorAstilPath vendorElectronPath
  intro h
  have h1 := filepathJoin_inj _ h
  exact absurd h1 (by decide)

theorem insertVendor_idem (v : List (String × Nat)) (n : String) (c : Nat) :
    insertVendor (insertVendor v n c) n c = insertVendor v n c := by
  induction v with
  | nil => simp [insertVendor]
  | cons hd tl ih =>
    obtain ⟨m, c0⟩ := hd
    by_cases hm : m = n
    · simp [insertVendor, hm]
    · simp [insertVendor, hm, ih]

/-! ### The uncancelled run of `provisionVendorZip` -/

theorem provisionVendorZip_none (src pc vn : String) (s : St)
    (h : s.cache pc ≠ .statError) :
    provisionVendorZip none src pc vn s = .ok (pvzResult src pc vn s) := by
  cases hc : s.cache pc with
  | absent =>
      simp [provisionVendorZip, download, copyFile, fired, pvzResult, hc,
        updateCache]
  | present c =>
      simp [provisionVendorZip, download, copyFile, fired, pvzResult, hc]
  | statError => exact absurd hc h

theorem pvzResult_remote (src pc vn : String) (s : St) :
    (pvzResult src pc vn s).remote = s.remote := by
  cases hc : s.cache pc <;> simp [pvzResult, hc]

theorem pvzResult_zipOf (src pc vn : String) (s : St) :
    (pvzResult src pc vn s).zipOf = s.zipOf := by
  cases hc : s.cache pc <;> simp [pvzResult, hc]

theorem pvzResult_vendor (src pc vn : String) (s : St) :
    (pvzResult src pc vn s).vendor =
      insertVendor s.vendor vn (cachedOrRemote s pc src) := by
  cases hc : s.cache pc <;> simp [pvzResult, cachedOrRemote, hc]

theorem pvzResult_cache_self (src pc vn : String) (s : St) :
    (pvzResult src pc vn s).cache pc = .present (cachedOrRemote s pc src) := by
  cases hc : s.cache pc <;> simp [pvzResult, cachedOrRemote, hc, updateCache]

theorem pvzResult_cache_other (src pc vn : String) (s : St) {q : String}
    (h : q ≠ pc) :
    (pvzResult src pc vn s).cache q = s.cache q := by
  cases hc : s.cache pc <;> simp [pvzResult, hc, updateCache, h]

theorem pvzResult_fetches_of_present {s : St} {pc : String} {c : Nat}
    (h : s.cache pc = .present c) (src vn : String) :
    (pvzResult src pc vn s).fetches = s.fetches := by
  simp [pvzResult, h]

theorem pvzResult_fetches_of_absent {s : St} {pc : String}
    (h : s.cache pc = .absent) (src vn : String) :
    (pvzResult src pc vn s).fetches = s.fetches + 1 := by
  simp [pvzResult, h]

/-! ### The uncancelled run of `provisionVendor` -/

theorem postAstilZip_cache_astil_ne (b : Bundler) (s : St)
    (h : ¬ 0 < b.pathAstilectron.length) :
    postAstilZip b s = s := by
  simp [postAstilZip, h]

theorem provisionVendorAstilectron_none (b : Bundler) (s : St)
    (hA : s.cache (astilCacheKey b) ≠ .statError) :
    provisionVendorAstilectron b none s =
      .ok (pvzResult b.srcAstilectron (astilCacheKey b) (vendorAstilPath b)
            (postAstilZip b s)) := by
  by_cases hz : 0 < b.pathAstilectron.length
  · have hcache : (postAstilZip b s).cache (astilCacheKey b) =
        .present (s.zipOf b.pathAstilectron) := by
      simp [postAstilZip, hz, updateCache]
    simp only [provisionVendorAstilectron, zipDir, fired, hz, if_true, if_pos]
    simp only [Bool.false_eq_true, if_false]
    rw [provisionVendorZip_none _ _ _ _ (by simp [updateCache])]
    simp [postAstilZip, hz]
  · simp only [provisionVendorAstilectron, hz, if_false]
    rw [provisionVendorZip_none _ _ _ _ hA]
    rw [postAstilZip_cache_astil_ne b s hz]

theorem provisionVendor_none (b : Bundler) (oS arch : String) (s : St)
    (hA : s.cache (astilCacheKey b) ≠ .statError)
    (hE : s.cache (electronCacheKey b oS arch) ≠ .statError) :
    provisionVendor b none oS arch s = .ok (pvResult b oS arch s) := by
  have hA2 : (postVendorClear s).cache (astilCacheKey b) ≠ .statError := by
    simpa [postVendorClear, mkdirVendor, removeAllVendor] using hA
  have hkey := astilCacheKey_ne_electronCacheKey b oS arch
  have hE2 : (pvzResult b.srcAstilectron (astilCacheKey b) (vendorAstilPath b)
      (postAstilZip b (postVendorClear s))).cache
        (electronCacheKey b oS arch) ≠ .statError := by
    rw [pvzResult_cache_other _ _ _ _ (Ne.symm hkey)]
    by_cases hz : 0 < b.pathAstilectron.length
    · simpa [postAstilZip, hz, updateCache, Ne.symm hkey,
        postVendorClear, mkdirVendor, removeAllVendor] using hE
    · simpa [postAstilZip, hz, postVendorClear, mkdirVendor,
        removeAllVendor] using hE
  simp only [provisionVendor]
  rw [show mkdirVendor (removeAllVendor s) = postVendorClear s from rfl]
  rw [provisionVendorAstilectron_none b (postVendorClear s) hA2]
  simp only [provisionVendorElectron]
  rw [provisionVendorZip_none _ _ _ _ hE2]
  rfl

theorem pvResult_vendor (b : Bundler) (oS arch : String) (s : St) :
    (pvResult b oS arch s).vendor =
      [(vendorAstilPath b, astilPayload b s),
       (vendorElectronPath b, electronPayload b oS arch s)] := by
  have hkey := astilCacheKey_ne_electronCacheKey b oS arch
  have hvn := vendorAstilPath_ne_vendorElectronPath b
  unfold pvResult
  rw [pvzResult_vendor, pvzResult_vendor]
  have h1 : (postAstilZip b (postVendorClear s)).vendor = [] := by
    by_cases hz : 0 < b.pathAstilectron.length <;>
      simp [postAstilZip, hz, postVendorClear, mkdirVendor, removeAllVendor]
  rw [h1]
  have h2 : cachedOrRemote (postAstilZip b (postVendorClear s))
      (astilCacheKey b) b.srcAstilectron = astilPayload b s := by
    by_cases hz : 0 < b.pathAstilectron.length <;>
      simp [cachedOrRemote, postAstilZip, hz, updateCache, astilPayload,
        postVendorClear, mkdirVendor, removeAllVendor]
  have h3 : cachedOrRemote
      (pvzResult b.srcAstilectron (astilCacheKey b) (vendorAstilPath b)
        (postAstilZip b (postVendorClear s)))
      (electronCacheKey b oS arch) (b.srcElectron oS arch) =
      electronPayload b oS arch s := by
    unfold cachedOrRemote
    rw [pvzResult_cache_other _ _ _ _ (Ne.symm hkey), pvzResult_remote]
    by_cases hz : 0 < b.pathAstilectron.length <;>
      simp [postAstilZip, hz, updateCache, Ne.symm hkey, electronPayload,
        cachedOrRemote, postVendorClear, mkdirVendor, removeAllVendor]
  rw [h2, h3]
  simp [insertVendor, Ne.symm hvn, hvn]

theorem pvResult_cache_preserve (b : Bundler) (oS arch : String) (s : St)
    (q : String) (h : (pvResult b oS arch s).cache q = .statError) :
    s.cache q = .statError := by
  by_cases hqe : q = electronCacheKey b oS arch
  · rw [hqe, pvResult, pvzResult_cache_self] at h
    cases h
  · rw [pvResult, pvzResult_cache_other _ _ _ _ hqe] at h
    by_cases hqa : q = astilCacheKey b
    · rw [hqa, pvzResult_cache_self] at h
      cases h
    · rw [pvzResult_cache_other _ _ _ _ hqa] at h
      by_cases hz : 0 < b.pathAstilectron.length
      · simpa [postAstilZip, hz, updateCache, hqa, postVendorClear,
          mkdirVendor, removeAllVendor] using h
      · simpa [postAstilZip, hz, postVendorClear, mkdirVendor,
          removeAllVendor] using h

/-- C1.  Immediately before each environment's build, the vendor
directory holds exactly two items — the astilectron archive and that
environment's electron archive — because `provisionVendor` first
removes the vendor directory entirely, recreates it empty, and then
provisions exactly the two payloads; provisioning for environment A
followed by environment B leaves the vendor directory with exactly the
two entries for B (B's electron payload), with no trace of A's
platform-specific payload.  Hypotheses: stat on the involved cache
entries does not fail with a non-not-exist error, and the token never
fires. -/
theorem C1_vendor_fully_replaced_per_environment (b : Bundler) (s : St)
    (osA archA osB archB : String)
    (hA : s.cache (astilCacheKey b) ≠ .statError)
    (hEA : s.cache (electronCacheKey b osA archA) ≠ .statError)
    (hEB : s.cache (electronCacheKey b osB archB) ≠ .statError) :
    ∃ s1 s2,
      provisionVendor b none osA archA s = .ok s1 ∧
      provisionVendor b none osB archB s1 = .ok s2 ∧
      s1.vendor = [(vendorAstilPath b, astilPayload b s),
                   (vendorElectronPath b, electronPayload b osA archA s)] ∧
      s2.vendor = [(vendorAstilPath b, astilPayload b s1),
                   (vendorElectronPath b, electronPayload b osB archB s1)] := by
  refine ⟨pvResult b osA archA s, pvResult b osB archB (pvResult b osA archA s),
    provisionVendor_none b osA archA s hA hEA,
    provisionVendor_none b osB archB _ ?_ ?_,
    pvResult_vendor b osA archA s, pvResult_vendor b osB archB _⟩
  · intro h
    exact hA (pvResult_cache_preserve b osA archA s _ h)
  · intro h
    exact hEB (pvResult_cache_preserve b osA archA s _ h)

theorem C1_witness :
    ∃ s1 s2,
      provisionVendor bEx none "linux" "amd64" sEx = .ok s1 ∧
      provisionVendor bEx none "darwin" "amd64" s1 = .ok s2 ∧
      s1.vendor = [(vendorAstilPath bEx, astilPayload bEx sEx),
                   (vendorElectronPath bEx, electronPayload bEx "linux" "amd64" sEx)] ∧
      s2.vendor = [(vendorAstilPath bEx, astilPayload bEx s1),
                   (vendorElectronPath bEx, electronPayload bEx "darwin" "amd64" s1)] :=
  C1_vendor_fully_replaced_per_environment bEx sEx "linux" "amd64" "darwin" "amd64"
    (by decide) (by decide) (by decide)

/-- C2.  Vendor provisioning is idempotent with respect to the cache:
with the cache entry for a key initially absent, the first
`provisionVendorZip` performs exactly one network fetch into the cache
path; a second run for the same key performs zero fetches (the mere
existence of the cache file suppresses the download), produces a
byte-identical vendor directory, and the cache entry — copied, not
moved — is still present afterwards. -/
theorem C2_provisioning_idempotent_wrt_cache (src pc vn : String) (s : St)
    (habs : s.cache pc = .absent) :
    ∃ s1 s2,
      provisionVendorZip none src pc vn s = .ok s1 ∧
      s1.fetches = s.fetches + 1 ∧
      s1.cache pc = .present (s.remote src) ∧
      provisionVendorZip none src pc vn s1 = .ok s2 ∧
      s2.fetches = s1.fetches ∧
      s2.vendor = s1.vendor ∧
      s2.cache pc = s1.cache pc := by
  have h1 : s.cache pc ≠ .statError := by rw [habs]; intro h; cases h
  have hs1cache : (pvzResult src pc vn s).cache pc = .present (s.remote src) := by
    rw [pvzResult_cache_self]
    simp [cachedOrRemote, habs]
  have h2 : (pvzResult src pc vn s).cache pc ≠ .statError := by
    rw [hs1cache]
    intro h
    cases h
  refine ⟨pvzResult src pc vn s, pvzResult src pc vn (pvzResult src pc vn s),
    provisionVendorZip_none src pc vn s h1, ?_, hs1cache,
    provisionVendorZip_none src pc vn _ h2, ?_, ?_, ?_⟩
  · exact pvzResult_fetches_of_absent habs src vn
  · exact pvzResult_fetches_of_present hs1cache src vn
  · rw [pvzResult_vendor, pvzResult_vendor]
    have hc1 : cachedOrRemote (pvzResult src pc vn s) pc src = s.remote src := by
      simp [cachedOrRemote, hs1cache]
    have hc0 : cachedOrRemote s pc src = s.remote src := by
      simp [cachedOrRemote, habs]
    rw [hc1, hc0, insertVendor_idem]
  · rw [pvzResult_cache_self, hs1cache]
    simp [cachedOrRemote, hs1cache]

theorem C2_witness :
    ∃ s1 s2,
      provisionVendorZip none "https://electron" "/cache/electron.zip"
        "/in/vendor/electron.zip" sEx = .ok s1 ∧
      s1.fetches = sEx.fetches + 1 ∧
      s1.cache "/cache/electron.zip" = .present (sEx.remote "https://electron") ∧
      provisionVendorZip none "https://electron" "/cache/electron.zip"
        "/in/vendor/electron.zip" s1 = .ok s2 ∧
      s2.fetches = s1.fetches ∧
      s2.vendor = s1.vendor ∧
      s2.cache "/cache/electron.zip" = s1.cache "/cache/electron.zip" :=
  C2_provisioning_idempotent_wrt_cache "https://electron" "/cache/electron.zip"
    "/in/vendor/electron.zip" sEx (by decide)

/-- C9.  In `provisionVendorZip` the download is skipped in every case
where stat-ing the cache path does not return a not-exist error — in
particular when the stat itself fails for another reason (permission
error): the function performs no fetch, never reports the stat failure,
and proceeds directly to copying the unreadable cache entry into the
vendor directory, surfacing only the copy failure. -/
theorem C9_stat_error_treated_as_cache_hit (src pc vn : String) (s : St)
    (h : s.cache pc = .statError) :
    ∃ s', provisionVendorZip none src pc vn s =
        .error (.wrap ("copying " ++ pc ++ " to " ++ vn ++ " failed")
                  (.ioErr ("cannot read " ++ pc)), s') ∧
      s'.fetches = s.fetches ∧
      s'.vendor = s.vendor ∧
      s'.cache = s.cache := by
  refine ⟨{ s with time := s.time + 1 }, ?_, rfl, rfl, rfl⟩
  simp [provisionVendorZip, copyFile, fired, h]

theorem C9_witness :
    ∃ s', provisionVendorZip none "https://electron" "/cache/electron.zip"
        "/in/vendor/electron.zip" sExStatErr =
        .error (.wrap ("copying " ++ "/cache/electron.zip" ++ " to " ++
                        "/in/vendor/electron.zip" ++ " failed")
                  (.ioErr ("cannot read " ++ "/cache/electron.zip")), s') ∧
      s'.fetches = sExStatErr.fetches ∧
      s'.vendor = sExStatErr.vendor ∧
      s'.cache = sExStatErr.cache :=
  C9_stat_error_treated_as_cache_hit "https://electron" "/cache/electron.zip"
    "/in/vendor/electron.zip" sExStatErr (by decide)

/-- C6.  For every raw-path / default-function pair, `absPath` returns
the absolutized form of a non-empty raw path, failing only when
absolutization fails (the failure being wrapped with the offending
path); on an empty raw path it returns exactly the default function's
success value and propagates (wrapped) the default function's failure;
and on an empty raw path with no default function it returns the empty
path with no error. -/
theorem C6_absPath_resolution (absFn : String → Except BErr String)
    (p : String) (fn : Unit → Except BErr String) :
    (0 < p.length → ∀ dOpt, absPath absFn p dOpt =
      match absFn p with
      | .ok v => .ok v
      | .error e => .error (.wrap ("filepath.Abs of " ++ p ++ " failed") e)) ∧
    (p.length = 0 → absPath absFn p (some fn) =
      match fn () with
      | .ok v => .ok v
      | .error e => .error (.wrap ("default path function to compute absPath of " ++
                              p ++ " failed") e)) ∧
    (p.length = 0 → absPath absFn p none = .ok "") := by
  refine ⟨fun hp dOpt => ?_, fun hp => ?_, fun hp => ?_⟩
  · simp only [absPath, hp, if_true, if_pos]
    cases absFn p <;> rfl
  · have hp' : ¬ 0 < p.length := by omega
    simp only [absPath, hp', if_false]
    cases fn () <;> rfl
  · have hp' : ¬ 0 < p.length := by omega
    simp [absPath, hp']

theorem C6_witness :
    ((0 < ("conf" : String).length → ∀ dOpt, absPath absFnEx "conf" dOpt =
      match absFnEx "conf" with
      | .ok v => .ok v
      | .error e => .error (.wrap ("filepath.Abs of " ++ "conf" ++ " failed") e)) ∧
    (("conf" : String).length = 0 → absPath absFnEx "conf" (some defaultFnEx) =
      match defaultFnEx () with
      | .ok v => .ok v
      | .error e => .error (.wrap ("default path function to compute absPath of " ++
                              "conf" ++ " failed") e)) ∧
    (("conf" : String).length = 0 → absPath absFnEx "conf" none = .ok "")) ∧
    absPath absFnEx "conf" none = .ok "/wd/conf" ∧
    absPath absFnEx "" (some defaultFnEx) = .ok "/wd" ∧
    absPath absFnEx "" none = .ok "" :=
  ⟨C6_absPath_resolution absFnEx "conf" defaultFnEx, rfl, rfl, rfl⟩

/-- C7.  The compiler subprocess is run with a replaced, not inherited,
process environment (`cmd.Env` set non-nil) containing exactly four
variables: the target architecture (GOARCH), the target OS (GOOS), the
toolchain root path (GOPATH) and the system PATH — so no other host
environment variable can leak into the cross-build. -/
theorem C7_compiler_env_exactly_four (goBinary ldflagsStr binaryPath buildPath :
    String) (e : Env) (gopath path : String) :
    (buildCmd goBinary ldflagsStr binaryPath buildPath e gopath path).env =
      some ["GOARCH=" ++ e.arch, "GOOS=" ++ e.os,
            "GOPATH=" ++ gopath, "PATH=" ++ path] ∧
    ∃ l, (buildCmd goBinary ldflagsStr binaryPath buildPath e gopath path).env =
        some l ∧ l.length = 4 := by
  exact ⟨rfl, _, rfl, rfl⟩

/-- C10.  The environment name `Bundle` computes for filter matching and
the output directory path `bundle` independently recomputes agree on
every environment: the recomputed path is exactly the output root
joined with the `Bundle`-derived name (so its basename is that
name). -/
theorem C10_environment_name_derivations_agree (pathOutput : String) (e : Env) :
    environmentPath pathOutput e = filepathJoin pathOutput (eName e) := by
  have hassoc : ∀ x y z w : String, ((x ++ y) ++ z) ++ w = x ++ ((y ++ z) ++ w) := by
    intro x y z w
    simp [String.append_assoc]
  by_cases ht : e.tags = ""
  · simp only [eName, environmentPath, ht]
    have h0 : ¬ 0 < ("" : String).length := by decide
    simp only [h0, if_false, ne_eq, not_true_eq_false, if_false]
    unfold filepathJoin
    by_cases hp : pathOutput = ""
    · simp [hp]
    · simp only [hp, if_false]
      apply String.ext
      simp [String.data_append, List.append_assoc]
  · have hlen : 0 < e.tags.length := by
      rcases hd : e.tags.data with _ | ⟨c, cs⟩
      · exact absurd (String.ext (hd.trans (by decide))) ht
      · have : e.tags.length = e.tags.data.length := rfl
        rw [this, hd]
        simp
    simp only [eName, environmentPath, hlen, if_true, ne_eq, ht,
      not_false_eq_true, if_pos]
    unfold filepathJoin
    by_cases hp : pathOutput = ""
    · simp [hp]
    · simp only [hp, if_false]
      apply String.ext
      simp [String.data_append, List.append_assoc]

theorem updateOut_self (f : String → Option Nat) (n : String) (v : Option Nat) :
    updateOut f n v n = v := by
  simp [updateOut]

theorem updateOut_other (f : String → Option Nat) (n : String) (v : Option Nat)
    {q : String} (h : q ≠ n) : updateOut f n v q = f q := by
  simp [updateOut, h]

/-- C5.  `Bundle` processes the environments strictly in configured
order; the first environment whose build fails aborts the run with an
error wrapped as `bundling for environment <OS>/<arch> failed`; later
environments are never attempted, and the outputs of environments that
already finished are left intact (only the failing environment's output
entry may hold a partial result).  Formalized over the `Bundle` loop
with the per-environment `bundle` step abstracted into the world `w`;
no filter is configured, and the derived environment names are assumed
pairwise distinct (the spec's legitimacy condition). -/
theorem C5_first_failure_aborts_run (w : BWorld) (pre post : List Env) (f : Env)
    (st : LSt) (err : BErr)
    (hpre : ∀ e ∈ pre, ∃ o, w.buildResult e = .ok o)
    (hf : w.buildResult f = .error err)
    (hnodup : (pre.map eName).Nodup)
    (hfname : eName f ∉ pre.map eName) :
    ∃ st',
      runBundle w none (pre ++ f :: post) st =
        .error (.wrap ("bundling for environment " ++ f.os ++ "/" ++ f.arch ++
                        " failed") err, st') ∧
      st'.attempts = st.attempts ++ pre.map eName ++ [eName f] ∧
      (∀ e ∈ pre, ∃ o, w.buildResult e = .ok o ∧
        st'.outputs (eName e) = some o) ∧
      (∀ n, n ∉ pre.map eName → n ≠ eName f → st'.outputs n = st.outputs n) := by
  induction pre generalizing st with
  | nil =>
    refine ⟨{ outputs := updateOut st.outputs (eName f) (w.leftoverOut f),
              attempts := st.attempts ++ [eName f] }, ?_, by simp, by simp, ?_⟩
    · simp [runBundle, hf]
    · intro n _ hn2
      exact updateOut_other _ _ _ hn2
  | cons e pre' ih =>
    obtain ⟨o, ho⟩ := hpre e (by simp)
    have hpre' : ∀ e' ∈ pre', ∃ o, w.buildResult e' = .ok o :=
      fun e' he' => hpre e' (by simp [he'])
    have hne : eName e ∉ pre'.map eName := (List.nodup_cons.1 (by simpa using hnodup)).1
    have hnodup' : (pre'.map eName).Nodup :=
      (List.nodup_cons.1 (by simpa using hnodup)).2
    have hfname' : eName f ∉ pre'.map eName := fun h => hfname (by simp [h])
    have hfe : eName f ≠ eName e := fun h => hfname (by simp [h])
    obtain ⟨st', hrun, hatt, hpreout, hother⟩ :=
      ih { outputs := updateOut st.outputs (eName e) (some o),
           attempts := st.attempts ++ [eName e] } hpre' hnodup' hfname'
    refine ⟨st', ?_, ?_, ?_, ?_⟩
    · simpa [runBundle, ho] using hrun
    · simp only [hatt]
      simp
    · intro e' he'
      rcases List.mem_cons.1 he' with he' | he'
      · subst he'
        refine ⟨o, ho, ?_⟩
        rw [hother _ hne (Ne.symm hfe)]
        exact updateOut_self _ _ _
      · exact hpreout e' he'
    · intro n hn1 hn2
      have hn1' : n ∉ pre'.map eName := fun h => hn1 (by simp [h])
      have hne' : n ≠ eName e := fun h => hn1 (by simp [h])
      rw [hother n hn1' hn2]
      exact updateOut_other _ _ _ hne'

theorem C5_witness :
    ∃ st',
      runBundle wEx none
        ([⟨"linux", "amd64", ""⟩] ++ ⟨"windows", "amd64", ""⟩ ::
          [⟨"darwin", "amd64", ""⟩]) stEx =
        .error (.wrap ("bundling for environment " ++ "windows" ++ "/" ++
                        "amd64" ++ " failed") (.ioErr "compile failed"), st') ∧
      st'.attempts = stEx.attempts ++
        [(⟨"linux", "amd64", ""⟩ : Env)].map eName ++
        [eName ⟨"windows", "amd64", ""⟩] ∧
      (∀ e ∈ [(⟨"linux", "amd64", ""⟩ : Env)], ∃ o, wEx.buildResult e = .ok o ∧
        st'.outputs (eName e) = some o) ∧
      (∀ n, n ∉ [(⟨"linux", "amd64", ""⟩ : Env)].map eName →
        n ≠ eName ⟨"windows", "amd64", ""⟩ → st'.outputs n = stEx.outputs n) :=
  C5_first_failure_aborts_run wEx [⟨"linux", "amd64", ""⟩]
    [⟨"darwin", "amd64", ""⟩] ⟨"windows", "amd64", ""⟩ stEx
    (.ioErr "compile failed")
    (by intro e he
        simp only [List.mem_singleton] at he
        subst he
        exact ⟨1, rfl⟩)
    rfl (by decide) (by decide)

/-! ### The darwin `Info.plist` and `finishDarwin` -/

set_option maxRecDepth 10000 in
theorem infoPlistString_eq_render (appName iconExt : String) :
    infoPlistString appName iconExt =
      renderPlist (infoPlistEntries appName iconExt) := by
  apply String.ext
  simp only [infoPlistString, renderPlist, infoPlistEntries, renderPlistEntry,
    String.join, List.map, List.foldl]
  simp only [String.data_append]
  simp [List.append_assoc]

/-- C3.  Darwin finishing creates `<env>/<AppName>.app/Contents/MacOS`;
moves the compiled binary there renamed to the app name; marks it
executable; and — a darwin icon being configured — creates
`Contents/Resources` containing the icon copied in and renamed to the
app name plus the icon file's extension; it writes
`Contents/Info.plist` whose dictionary maps CFBundleDisplayName,
CFBundleExecutable and CFBundleName to the app name and
CFBundleIdentifier to exactly `com.` followed by the app name. -/
theorem C3_finishDarwin_layout (appName pathIconDarwin env bin : String)
    (hicon : 0 < pathIconDarwin.length) :
    finishDarwin appName pathIconDarwin env bin =
      [FsAction.mkdirAll (filepathJoin (filepathJoin
          (filepathJoin env (appName ++ ".app")) "Contents") "MacOS"),
       FsAction.move bin (filepathJoin (filepathJoin (filepathJoin
          (filepathJoin env (appName ++ ".app")) "Contents") "MacOS") appName),
       FsAction.chmod (filepathJoin (filepathJoin (filepathJoin
          (filepathJoin env (appName ++ ".app")) "Contents") "MacOS") appName),
       FsAction.mkdirAll (filepathJoin (filepathJoin
          (filepathJoin env (appName ++ ".app")) "Contents") "Resources"),
       FsAction.copy pathIconDarwin (filepathJoin (filepathJoin (filepathJoin
          (filepathJoin env (appName ++ ".app")) "Contents") "Resources")
          (appName ++ filepathExt pathIconDarwin)),
       FsAction.writeFile (filepathJoin (filepathJoin
          (filepathJoin env (appName ++ ".app")) "Contents") "Info.plist")
         (renderPlist (infoPlistEntries appName (filepathExt pathIconDarwin)))] ∧
    List.lookup "CFBundleDisplayName"
      (infoPlistEntries appName (filepathExt pathIconDarwin)) = some appName ∧
    List.lookup "CFBundleExecutable"
      (infoPlistEntries appName (filepathExt pathIconDarwin)) = some appName ∧
    List.lookup "CFBundleName"
      (infoPlistEntries appName (filepathExt pathIconDarwin)) = some appName ∧
    List.lookup "CFBundleIdentifier"
      (infoPlistEntries appName (filepathExt pathIconDarwin)) =
      some ("com." ++ appName) := by
  refine ⟨?_, rfl, rfl, rfl, rfl⟩
  simp [finishDarwin, hicon, infoPlistString_eq_render]

theorem C3_witness :
    finishDarwin "Demo" "/icons/icon.icns" "/out/darwin-amd64"
        "/out/darwin-amd64/binary" =
      [FsAction.mkdirAll (filepathJoin (filepathJoin
          (filepathJoin "/out/darwin-amd64" ("Demo" ++ ".app")) "Contents") "MacOS"),
       FsAction.move "/out/darwin-amd64/binary" (filepathJoin (filepathJoin
          (filepathJoin (filepathJoin "/out/darwin-amd64" ("Demo" ++ ".app"))
            "Contents") "MacOS") "Demo"),
       FsAction.chmod (filepathJoin (filepathJoin (filepathJoin
          (filepathJoin "/out/darwin-amd64" ("Demo" ++ ".app")) "Contents")
            "MacOS") "Demo"),
       FsAction.mkdirAll (filepathJoin (filepathJoin
          (filepathJoin "/out/darwin-amd64" ("Demo" ++ ".app")) "Contents")
            "Resources"),
       FsAction.copy "/icons/icon.icns" (filepathJoin (filepathJoin (filepathJoin
          (filepathJoin "/out/darwin-amd64" ("Demo" ++ ".app")) "Contents")
            "Resources") ("Demo" ++ filepathExt "/icons/icon.icns")),
       FsAction.writeFile (filepathJoin (filepathJoin
          (filepathJoin "/out/darwin-amd64" ("Demo" ++ ".app")) "Contents")
            "Info.plist")
         (renderPlist (infoPlistEntries "Demo" (filepathExt "/icons/icon.icns")))] ∧
    List.lookup "CFBundleDisplayName"
      (infoPlistEntries "Demo" (filepathExt "/icons/icon.icns")) = some "Demo" ∧
    List.lookup "CFBundleExecutable"
      (infoPlistEntries "Demo" (filepathExt "/icons/icon.icns")) = some "Demo" ∧
    List.lookup "CFBundleName"
      (infoPlistEntries "Demo" (filepathExt "/icons/icon.icns")) = some "Demo" ∧
    List.lookup "CFBundleIdentifier"
      (infoPlistEntries "Demo" (filepathExt "/icons/icon.icns")) =
      some ("com." ++ "Demo") :=
  C3_finishDarwin_layout "Demo" "/icons/icon.icns" "/out/darwin-amd64"
    "/out/darwin-amd64/binary" (by decide)

set_option maxRecDepth 100000 in
/-- C8 counterexample.  With app name `Demo` and no darwin icon
configured (empty icon path), the written `Info.plist` still contains a
CFBundleIconFile (icon-filename) entry — with value `Demo` — refuting
the claim that it then contains no icon-filename entry. -/
theorem C8_counterexample :
    List.lookup "CFBundleIconFile"
      (infoPlistEntries "Demo" (filepathExt "")) = some "Demo" ∧
    infoPlistString "Demo" (filepathExt "") =
      renderPlist (infoPlistEntries "Demo" (filepathExt "")) ∧
    FsAction.writeFile (filepathJoin (filepathJoin
        (filepathJoin "/out" ("Demo" ++ ".app")) "Contents") "Info.plist")
      (infoPlistString "Demo" (filepathExt "")) ∈
      finishDarwin "Demo" "" "/out" "/out/binary" :=
  ⟨rfl, infoPlistString_eq_render "Demo" (filepathExt ""), by decide⟩

/-- C8 amended.  The generated darwin `Info.plist` always embeds an
icon-filename (CFBundleIconFile) entry, icon configured or not; its
value is the app name followed by the icon path's extension, which — in
the unconfigured case, where the icon path is empty and its extension
empty — degenerates to the bare app name. -/
theorem C8_icon_entry_unconditional (a i env bin : String) :
    ("CFBundleIconFile", a ++ filepathExt i) ∈
      infoPlistEntries a (filepathExt i) ∧
    infoPlistString a (filepathExt i) =
      renderPlist (infoPlistEntries a (filepathExt i)) ∧
    a ++ filepathExt "" = a ∧
    ∃ pre, finishDarwin a "" env bin = pre ++
      [FsAction.writeFile (filepathJoin (filepathJoin
          (filepathJoin env (a ++ ".app")) "Contents") "Info.plist")
        (infoPlistString a (filepathExt ""))] := by
  refine ⟨by simp [infoPlistEntries], infoPlistString_eq_render a (filepathExt i),
    ?_, ?_⟩
  · rw [show filepathExt "" = "" from rfl]
    apply String.ext
    simp only [String.data_append, show ("" : String).data = [] from rfl,
      List.append_nil]
  · refine ⟨[FsAction.mkdirAll (filepathJoin (filepathJoin
        (filepathJoin env (a ++ ".app")) "Contents") "MacOS"),
      FsAction.move bin (filepathJoin (filepathJoin (filepathJoin
        (filepathJoin env (a ++ ".app")) "Contents") "MacOS") a),
      FsAction.chmod (filepathJoin (filepathJoin (filepathJoin
        (filepathJoin env (a ++ ".app")) "Contents") "MacOS") a)], ?_⟩
    simp [finishDarwin]

/-! ### Cancellation: firing the token anywhere inside provisioning -/

theorem pvz_fire (src pc vn : String) (s : St) (t : Nat)
    (h : s.cache pc ≠ .statError)
    (ht : t ≤ (pvzResult src pc vn s).time) :
    ∃ e s', provisionVendorZip (some t) src pc vn s = .error (e, s') ∧
      e.isCancelRooted = true := by
  cases hc : s.cache pc with
  | statError => exact absurd hc h
  | present c =>
    have htime : (pvzResult src pc vn s).time = s.time + 1 := by
      simp [pvzResult, hc]
    rw [htime] at ht
    by_cases h1 : t ≤ s.time
    · have hb : fired (some t) s.time = true := by simp [fired]; omega
      exact ⟨.ctxCanceled, s, by simp [provisionVendorZip, hc, hb], rfl⟩
    · have hb1 : fired (some t) s.time = false := by simp [fired]; omega
      have hb2 : fired (some t) (s.time + 1) = true := by simp [fired]; omega
      exact ⟨.ctxCanceled,
        { s with vendor := insertVendor s.vendor vn c, time := s.time + 1 },
        by simp [provisionVendorZip, copyFile, hc, hb1, hb2], rfl⟩
  | absent =>
    have htime : (pvzResult src pc vn s).time = s.time + 2 := by
      simp [pvzResult, hc]
    rw [htime] at ht
    by_cases h1 : t ≤ s.time
    · have hb : fired (some t) s.time = true := by simp [fired]; omega
      exact ⟨.wrap ("downloading " ++ src ++ " into " ++ pc ++ " failed")
          .ctxCanceled, s,
        by simp [provisionVendorZip, download, hc, hb], rfl⟩
    · by_cases h2 : t ≤ s.time + 1
      · have hb1 : fired (some t) s.time = false := by simp [fired]; omega
        have hb2 : fired (some t) (s.time + 1) = true := by simp [fired]; omega
        exact ⟨.ctxCanceled,
          { s with cache := updateCache s.cache pc (.present (s.remote src)),
                   fetches := s.fetches + 1, time := s.time + 1 },
          by simp [provisionVendorZip, download, hc, hb1, hb2], rfl⟩
      · have hb1 : fired (some t) s.time = false := by simp [fired]; omega
        have hb2 : fired (some t) (s.time + 1) = false := by simp [fired]; omega
        have hb3 : fired (some t) (s.time + 2) = true := by simp [fired]; omega
        exact ⟨.ctxCanceled,
          { s with cache := updateCache s.cache pc (.present (s.remote src)),
                   fetches := s.fetches + 1,
                   vendor := insertVendor s.vendor vn (s.remote src),
                   time := s.time + 2 },
          by simp [provisionVendorZip, download, copyFile, hc, hb1, hb2, hb3,
            updateCache], rfl⟩

theorem pvz_pass (src pc vn : String) (s : St) (t : Nat)
    (h : s.cache pc ≠ .statError)
    (ht : (pvzResult src pc vn s).time < t) :
    provisionVendorZip (some t) src pc vn s = .ok (pvzResult src pc vn s) := by
  cases hc : s.cache pc with
  | statError => exact absurd hc h
  | present c =>
    have htime : (pvzResult src pc vn s).time = s.time + 1 := by
      simp [pvzResult, hc]
    rw [htime] at ht
    have hb1 : fired (some t) s.time = false := by simp [fired]; omega
    have hb2 : fired (some t) (s.time + 1) = false := by simp [fired]; omega
    simp [provisionVendorZip, copyFile, pvzResult, hc, hb1, hb2]
  | absent =>
    have htime : (pvzResult src pc vn s).time = s.time + 2 := by
      simp [pvzResult, hc]
    rw [htime] at ht
    have hb1 : fired (some t) s.time = false := by simp [fired]; omega
    have hb2 : fired (some t) (s.time + 1) = false := by simp [fired]; omega
    have hb3 : fired (some t) (s.time + 2) = false := by simp [fired]; omega
    simp [provisionVendorZip, download, copyFile, pvzResult, hc, hb1, hb2, hb3,
      updateCache]

theorem pva_unfold_nozip (b : Bundler) (fireAt : Option Nat) (s : St)
    (hz : ¬ 0 < b.pathAstilectron.length) :
    provisionVendorAstilectron b fireAt s =
      provisionVendorZip fireAt b.srcAstilectron (astilCacheKey b)
        (vendorAstilPath b) (postAstilZip b s) := by
  simp [provisionVendorAstilectron, hz, postAstilZip]

theorem pva_unfold_zip (b : Bundler) (fireAt : Option Nat) (s : St)
    (hz : 0 < b.pathAstilectron.length)
    (hb1 : fired fireAt s.time = false)
    (hb2 : fired fireAt (s.time + 1) = false) :
    provisionVendorAstilectron b fireAt s =
      provisionVendorZip fireAt b.srcAstilectron (astilCacheKey b)
        (vendorAstilPath b) (postAstilZip b s) := by
  simp [provisionVendorAstilectron, zipDir, hz, hb1, hb2, postAstilZip]

theorem pva_fire (b : Bundler) (s : St) (t : Nat)
    (hA : s.cache (astilCacheKey b) ≠ .statError)
    (ht : t ≤ (pvzResult b.srcAstilectron (astilCacheKey b) (vendorAstilPath b)
        (postAstilZip b s)).time) :
    ∃ e s', provisionVendorAstilectron b (some t) s = .error (e, s') ∧
      e.isCancelRooted = true := by
  by_cases hz : 0 < b.pathAstilectron.length
  · have hzip : postAstilZip b s =
        { s with cache := updateCache s.cache (astilCacheKey b)
                   (.present (s.zipOf b.pathAstilectron)),
                 time := s.time + 1 } := by
      simp [postAstilZip, hz]
    have hs3 : (postAstilZip b s).cache (astilCacheKey b) =
        .present (s.zipOf b.pathAstilectron) := by
      rw [hzip]
      simp [updateCache]
    by_cases h1 : t ≤ s.time
    · have hb : fired (some t) s.time = true := by simp [fired]; omega
      exact ⟨.wrap ("zipping " ++ b.pathAstilectron ++ " into " ++
          astilCacheKey b ++ " failed") .ctxCanceled, s,
        by simp [provisionVendorAstilectron, zipDir, hz, hb], rfl⟩
    · by_cases h2 : t ≤ s.time + 1
      · have hb1 : fired (some t) s.time = false := by simp [fired]; omega
        have hb2 : fired (some t) (s.time + 1) = true := by simp [fired]; omega
        exact ⟨.ctxCanceled,
          { s with cache := updateCache s.cache (astilCacheKey b)
                     (.present (s.zipOf b.pathAstilectron)),
                   time := s.time + 1 },
          by simp [provisionVendorAstilectron, zipDir, hz, hb1, hb2], rfl⟩
      · have hb1 : fired (some t) s.time = false := by simp [fired]; omega
        have hb2 : fired (some t) (s.time + 1) = false := by simp [fired]; omega
        obtain ⟨e, s', hrun, hroot⟩ := pvz_fire b.srcAstilectron
          (astilCacheKey b) (vendorAstilPath b) (postAstilZip b s) t
          (by rw [hs3]; intro hcon; cases hcon) ht
        refine ⟨e, s', ?_, hroot⟩
        rw [pva_unfold_zip b (some t) s hz hb1 hb2]
        exact hrun
  · obtain ⟨e, s', hrun, hroot⟩ := pvz_fire b.srcAstilectron
      (astilCacheKey b) (vendorAstilPath b) (postAstilZip b s) t
      (by rwa [postAstilZip_cache_astil_ne b s hz]) ht
    refine ⟨e, s', ?_, hroot⟩
    rw [pva_unfold_nozip b (some t) s hz]
    exact hrun

theorem pva_pass (b : Bundler) (s : St) (t : Nat)
    (hA : s.cache (astilCacheKey b) ≠ .statError)
    (ht : (pvzResult b.srcAstilectron (astilCacheKey b) (vendorAstilPath b)
        (postAstilZip b s)).time < t) :
    provisionVendorAstilectron b (some t) s =
      .ok (pvzResult b.srcAstilectron (astilCacheKey b) (vendorAstilPath b)
        (postAstilZip b s)) := by
  by_cases hz : 0 < b.pathAstilectron.length
  · have hzip : postAstilZip b s =
        { s with cache := updateCache s.cache (astilCacheKey b)
                   (.present (s.zipOf b.pathAstilectron)),
                 time := s.time + 1 } := by
      simp [postAstilZip, hz]
    have hs3 : (postAstilZip b s).cache (astilCacheKey b) =
        .present (s.zipOf b.pathAstilectron) := by
      rw [hzip]
      simp [updateCache]
    have htot : (pvzResult b.srcAstilectron (astilCacheKey b)
        (vendorAstilPath b) (postAstilZip b s)).time = s.time + 2 := by
      have h1 : (pvzResult b.srcAstilectron (astilCacheKey b)
          (vendorAstilPath b) (postAstilZip b s)).time =
          (postAstilZip b s).time + 1 := by
        simp [pvzResult, hs3]
      rw [h1, hzip]
    rw [htot] at ht
    have hb1 : fired (some t) s.time = false := by simp [fired]; omega
    have hb2 : fired (some t) (s.time + 1) = false := by simp [fired]; omega
    rw [pva_unfold_zip b (some t) s hz hb1 hb2]
    exact pvz_pass _ _ _ _ t (by rw [hs3]; intro hcon; cases hcon)
      (by rw [htot]; omega)
  · rw [pva_unfold_nozip b (some t) s hz]
    exact pvz_pass _ _ _ _ t (by rwa [postAstilZip_cache_astil_ne b s hz]) ht

/-- C4.  The cancellation token is checked after every I/O step of
vendor provisioning, and the ctx-aware primitives (zip, download, copy)
abort when the token has fired when they start; hence cancellation
fired at any instant up to the completion time of the uncancelled run
makes provisioning terminate with an error rooted at the context's
cancellation error — the bare context error at a checkpoint, or a
provisioning wrapper around it — never a generic I/O error.  The stat
hypotheses only ensure the run would not have failed for an unrelated
I/O reason before the firing instant. -/
theorem C4_cancellation_reported_not_io_error (b : Bundler) (oS arch : String)
    (s : St) (t : Nat)
    (hA : s.cache (astilCacheKey b) ≠ .statError)
    (hE : s.cache (electronCacheKey b oS arch) ≠ .statError)
    (ht : t ≤ (pvResult b oS arch s).time) :
    ∃ e s', provisionVendor b (some t) oS arch s = .error (e, s') ∧
      e.isCancelRooted = true := by
  have hA2 : (postVendorClear s).cache (astilCacheKey b) ≠ .statError := by
    simpa [postVendorClear, mkdirVendor, removeAllVendor] using hA
  have hkey := astilCacheKey_ne_electronCacheKey b oS arch
  have hE2 : (pvzResult b.srcAstilectron (astilCacheKey b) (vendorAstilPath b)
      (postAstilZip b (postVendorClear s))).cache
        (electronCacheKey b oS arch) ≠ .statError := by
    rw [pvzResult_cache_other _ _ _ _ (Ne.symm hkey)]
    by_cases hz : 0 < b.pathAstilectron.length
    · simpa [postAstilZip, hz, updateCache, Ne.symm hkey, postVendorClear,
        mkdirVendor, removeAllVendor] using hE
    · simpa [postAstilZip, hz, postVendorClear, mkdirVendor,
        removeAllVendor] using hE
  by_cases hsplit : t ≤ (pvzResult b.srcAstilectron (astilCacheKey b)
      (vendorAstilPath b) (postAstilZip b (postVendorClear s))).time
  · obtain ⟨e, s', hrun, hroot⟩ := pva_fire b (postVendorClear s) t hA2 hsplit
    refine ⟨.wrap "provisioning astilectron vendor failed" e, s', ?_,
      by simp [BErr.isCancelRooted, hroot]⟩
    simp only [provisionVendor]
    rw [show mkdirVendor (removeAllVendor s) = postVendorClear s from rfl, hrun]
  · have hlt : (pvzResult b.srcAstilectron (astilCacheKey b)
        (vendorAstilPath b) (postAstilZip b (postVendorClear s))).time < t := by
      omega
    have hpass := pva_pass b (postVendorClear s) t hA2 hlt
    obtain ⟨e, s', hrun, hroot⟩ := pvz_fire (b.srcElectron oS arch)
      (electronCacheKey b oS arch) (vendorElectronPath b)
      (pvzResult b.srcAstilectron (astilCacheKey b) (vendorAstilPath b)
        (postAstilZip b (postVendorClear s))) t hE2 ht
    refine ⟨.wrap ("provisioning electron vendor for OS " ++ oS ++
        " and arch " ++ arch ++ " failed") e, s', ?_,
      by simp [BErr.isCancelRooted, hroot]⟩
    simp only [provisionVendor]
    rw [show mkdirVendor (removeAllVendor s) = postVendorClear s from rfl, hpass]
    simp only [provisionVendorElectron]
    rw [hrun]

theorem C4_witness :
    ∃ e s', provisionVendor bEx (some 3) "linux" "amd64" sEx =
        .error (e, s') ∧ e.isCancelRooted = true :=
  C4_cancellation_reported_not_io_error bEx "linux" "amd64" sEx 3
    (by decide) (by decide) (by decide)
